import Mathlib

/-!
Shallow embedding of cptaffe/wikicrawl (src/main.go) and theorems about it.

The program crawls Wikipedia: starting from a seed article it repeatedly
extracts the first acceptable link from the article body (`Page.FollowLink`),
pushes it onto a path, and stops when the current article matches a target
regular expression.  On a dead end (no acceptable link) it backtracks.

The embedding below transcribes `src/main.go`:
- HTML token streams are lists of `Tok` values followed by a terminal error
  string (`Doc.final`), mirroring `golang.org/x/net/html.Tokenizer`, whose
  `Next` yields start/end/other tokens and eventually `ErrorToken` with
  `z.Err()` (message "EOF" for clean stream exhaustion, `io.EOF`).
- URLs and identifiers are strings; `url.Parse` / `(*url.URL).Parse` is an
  abstract resolver `String → Option String` (Go returns an error for
  unparseable references; modelled as `none`).
- Go string helpers work on `String.data` (lists of characters), which for
  the ASCII data involved coincides with Go's byte-level semantics.
-/

/-- Go `strings.HasPrefix pre s` (argument order: pre first here). -/
def goHasPre (pre s : String) : Bool :=
  pre.data.isPrefixOf s.data

/-- Go `strings.TrimPrefix s pre`: drop `pre` when it is a prefix, else `s`. -/
def goTrimPre (pre s : String) : String :=
  if goHasPre pre s then ⟨s.data.drop pre.data.length⟩ else s

/-- Go `strings.Contains s needle` for the single-character needles used by
the program (":", "/", "#"). -/
def goContainsCh (s : String) (c : Char) : Bool :=
  s.data.contains c

/-- Source `src/main.go`: `var divId string = "mw-content-text"`. -/
def divId : String := "mw-content-text"

/-- Source `src/main.go`: `var prefix = "http://en.wikipedia.org/wiki/"`
(the Go variable is named `prefix`). -/
def wikiBase : String := "http://en.wikipedia.org/wiki/"

/-- One markup token of the tokenizer stream: start tag with its attribute
list, end tag, or any other token kind (text, comment, doctype, ...), which
the source's `switch tt` ignores. -/
inductive Tok where
  | start (name : String) (attrs : List (String × String))
  | end_ (name : String)
  | other
deriving DecidableEq

/-- A document body as seen through the tokenizer: the tokens produced before
`ErrorToken`, and the error message `z.Err().Error()` reported at the end
("EOF" for clean exhaustion via `io.EOF`; e.g. "unexpected EOF" for a
truncated stream). -/
structure Doc where
  toks : List Tok
  final : String
deriving DecidableEq

/-- Source `type Page struct`: `Title string` (redirect title, "" by default)
and `Url *url.URL` (`none` models a nil pointer). -/
structure Page where
  title : String
  url : Option String
deriving DecidableEq

/-- Scanner state of `Page.FollowLink`: `inBody := false`, `inP := 0`,
`depth := 0` (Go `int`s). -/
structure ScanState where
  inBody : Bool
  inP : Int
  depth : Int
deriving DecidableEq

/-- Attribute scan of an anchor start tag, mirroring the `for more` loop in
`Page.FollowLink`: each `href` attribute is resolved with
`page.Url.Parse(val)` (here `parse`); an unparseable value breaks out of the
attribute loop ("skip to the second url"), a parsed one overwrites `pg.Url`;
a `title` attribute sets `pg.Title`. -/
def scanAnchorGo (parse : String → Option String) :
    List (String × String) → Page → Page
  | [], pg => pg
  | (k, v) :: rest, pg =>
    if k == "href" then
      match parse v with
      | none => pg
      | some u => scanAnchorGo parse rest { pg with url := some u }
    else if k == "title" then
      scanAnchorGo parse rest { pg with title := v }
    else
      scanAnchorGo parse rest pg

/-- The `pg := &Page\x7b\x7d` accumulator starts empty. -/
def scanAnchor (parse : String → Option String)
    (attrs : List (String × String)) : Page :=
  scanAnchorGo parse attrs ⟨"", none⟩

/-- One iteration of the token loop of `Page.FollowLink`: either the updated
scanner state (`Sum.inl`) or the accepted page to return (`Sum.inr`).
Transcribed from the `switch` in `src/main.go`:
- start/end `div`: when already `inBody` a start increments `depth`
  ("Descend into an inner div"); otherwise a start whose attributes carry
  `id == divId` sets `inBody`; an end sets `inBody := false` only when
  `depth == 0` (note: the source never decrements `depth`);
- `p` while `inBody`: `inP` is incremented/decremented on start/end;
- an anchor start while `inP > 0`: its attributes are scanned and
  `acceptFunc(pg.Url)` decides whether to return it. -/
def followTok (accept : Option String → Bool) (parse : String → Option String)
    (st : ScanState) (t : Tok) : ScanState ⊕ Page :=
  match t with
  | .start name attrs =>
    if name == "div" then
      if st.inBody then
        .inl { st with depth := st.depth + 1 }
      else if attrs.any (fun kv => kv.fst == "id" && kv.snd == divId) then
        .inl { st with inBody := true }
      else
        .inl st
    else if st.inBody && name == "p" then
      .inl { st with inP := st.inP + 1 }
    else if name == "a" then
      if 0 < st.inP then
        let pg := scanAnchor parse attrs
        if accept pg.url then .inr pg else .inl st
      else
        .inl st
    else
      .inl st
  | .end_ name =>
    if name == "div" then
      if st.depth == 0 then .inl { st with inBody := false } else .inl st
    else if st.inBody && name == "p" then
      .inl { st with inP := st.inP - 1 }
    else
      .inl st
  | .other => .inl st

/-- The token loop of `Page.FollowLink`: scan until a page is accepted or
the token stream is exhausted. -/
def followLoop (accept : Option String → Bool)
    (parse : String → Option String) : List Tok → ScanState → Option Page
  | [], _ => none
  | t :: ts, st =>
    match followTok accept parse st t with
    | .inr pg => some pg
    | .inl st' => followLoop accept parse ts st'

/-- `Page.FollowLink` on a fetched document: return the first accepted page,
or, when the stream ends (`html.ErrorToken`), the tokenizer's error
`z.Err()`.  A transport failure of `http.Get` is modelled as a document with
no tokens and the transport error text as `final` (observationally the same
`(page, err)` result for the caller). -/
def followLink (accept : Option String → Bool)
    (parse : String → Option String) (doc : Doc) : Except String Page :=
  match followLoop accept parse doc.toks ⟨false, 0, 0⟩ with
  | some pg => .ok pg
  | none => .error doc.final

/-- The scanner-state evolution of one token, independent of acceptance: a
rejected anchor leaves the state unchanged, so instantiating `followTok` with
the all-rejecting predicate yields exactly the state transition. -/
def scanNext (parse : String → Option String) (st : ScanState) (t : Tok) :
    ScanState :=
  match followTok (fun _ => false) parse st t with
  | .inl st' => st'
  | .inr _ => st

/-- The anchor candidate proposed at a token, if any: instantiating
`followTok` with the all-accepting predicate returns the candidate exactly
when the token is an in-scope anchor start. -/
def anchorHit (parse : String → Option String) (st : ScanState) (t : Tok) :
    Option Page :=
  match followTok (fun _ => true) parse st t with
  | .inr pg => some pg
  | .inl _ => none

/-- The candidates the CODE's scanner proposes, in document order: the
anchors encountered while its `inP` counter is positive.  Derived from
`followTok` itself, so it inherits the scanner's scoping — including the
never-decremented `depth` counter and the consultation of anchors whose
destination failed to parse.  The scoping the spec describes is `specAnchors`
below; the two differ (see the C3 counterexample). -/
def inScopeAnchors (parse : String → Option String) :
    List Tok → ScanState → List Page
  | [], _ => []
  | t :: ts, st =>
    match anchorHit parse st t with
    | some pg => pg :: inScopeAnchors parse ts (scanNext parse st t)
    | none => inScopeAnchors parse ts (scanNext parse st t)

/-- Propose each candidate to `accept` in order; stop at the first
acceptance. -/
def firstAccepted (accept : Option String → Bool) : List Page → Option Page
  | [] => none
  | pg :: pgs => if accept pg.url then some pg else firstAccepted accept pgs

/-- The extractor's outcome restated over the code-scope candidate list: the
first accepted anchor among those the code's own scanner treats as in scope,
else the stream's terminal error.  This deliberately follows the CODE's
scoping (it is the right-hand side of the amended claim C3, not the spec's
qualifying-text-block scoping, which is `specFirstDest` below). -/
def codeScopeExtract (accept : Option String → Bool)
    (parse : String → Option String) (doc : Doc) : Except String Page :=
  match firstAccepted accept (inScopeAnchors parse doc.toks ⟨false, 0, 0⟩) with
  | some pg => .ok pg
  | none => .error doc.final

/-- The destination a `FollowLink` outcome carries, if any. -/
def resultUrl : Except String Page → Option String
  | .ok pg => pg.url
  | .error _ => none

/-- The visited-pages check of the run loop's accept closure:
`p := haveVisited[*ur]; if p.Url != nil` — membership of the url among the
map's keys (every stored `Page` has a non-nil `Url`).  The map is modelled by
its key list. -/
def wikiAccept (visited : List String) (ur : String) : Bool :=
  if visited.contains ur then false
  else if !goHasPre wikiBase ur then false
  else if goContainsCh (goTrimPre wikiBase ur) ':'
       || goContainsCh (goTrimPre wikiBase ur) '/'
       || goContainsCh (goTrimPre wikiBase ur) '#' then false
  else true

/-- The accept closure as handed to `FollowLink`, over a possibly-nil URL.
When `pg.Url` is nil the Go closure dereferences it (`haveVisited[*ur]`) and
panics; none of the runs considered in the run-loop theorems reaches that
case (the extractor-level behaviour at a nil destination is settled
separately, at `followLink` itself). -/
def acceptOpt (visited : List String) : Option String → Bool
  | some c => wikiAccept visited c
  | none => false

/-- Key insertion of `haveVisited[*page.Url] = *page`: the key set gains the
url (re-assignment leaves the key set unchanged). -/
def insertVisited (u : String) (v : List String) : List String :=
  if v.contains u then v else u :: v

/-- Error classification in the run loop:
`str := err.Error(); len(str) >= 3 && str[len(str)-3:] == "EOF"` — the error
is treated as "no link on this page" whenever its message ends in "EOF". -/
def isRecoverableErr (msg : String) : Bool :=
  decide (3 ≤ msg.data.length) && (msg.data.drop (msg.data.length - 3) == "EOF".data)

/-- Run-loop state: `rpath` is `pageList` with the head of the list being
`pageList.Back()` (the current tail of the traversal path; the seed article
is the last element), `visited` the key set of `haveVisited`. -/
structure RunState where
  rpath : List Page
  visited : List String
deriving DecidableEq

/-- Outcome of one iteration of the run loop:
`next` — the loop continues with the given state;
`matched` — the target regexp matched the tail ("Found match");
`fatalStart` — `log.Fatal("Cannot find links on provided page")`, reached
when the dead-ending tail has no predecessor in the list;
`fatal` — `log.Fatal(err)` on any other extraction error. -/
inductive StepRes where
  | next (s : RunState)
  | matched (s : RunState)
  | fatalStart (s : RunState)
  | fatal (msg : String)
deriving DecidableEq

/-- External collaborators of the run loop: `target` models
`targetRegex.MatchString`, `parse` models `(*url.URL).Parse` resolution of an
href against the current page's url, `world` models `http.Get` plus the
response body (a transport failure is a `Doc` with no tokens whose `final`
is the transport error text). -/
structure RunCfg where
  target : String → Bool
  parse : String → String → Option String
  world : String → Doc

/-- One iteration of the `for` loop inside the crawler goroutine of `main`,
transcribed in order from `src/main.go`:
1. `listItem := pageList.Back(); page := listItem.Value` — the head of
   `rpath` (an empty list or a nil `page.Url` would crash Go; modelled as
   `fatal`, unreachable in the runs considered);
2. `haveVisited[*page.Url] = *page`;
3. `targetRegex.MatchString(strings.TrimPrefix(page.Url.String(), prefix))`
   — on a match, break with success;
4. `page.FollowLink(acceptFunc)` with the closure bound to `haveVisited`;
5. on an error ending in "EOF": `e := listItem.Prev()`; if `e == nil`,
   `log.Fatal("Cannot find links on provided page")`; otherwise
   `pageList.Remove(e)` — note the source removes `e`, the tail's
   predecessor, and `continue` re-reads `pageList.Back()`, which is still
   the same dead-ending tail;
6. on any other error: `log.Fatal(err)`;
7. on success: `pageList.PushBack(pg)`. -/
def runStep (cfg : RunCfg) (s : RunState) : StepRes :=
  match s.rpath with
  | [] => .fatal "empty path"
  | page :: rest =>
    match page.url with
    | none => .fatal "nil url dereference"
    | some u =>
      if cfg.target (goTrimPre wikiBase u) then
        .matched ⟨page :: rest, insertVisited u s.visited⟩
      else
        match followLink (acceptOpt (insertVisited u s.visited)) (cfg.parse u)
            (cfg.world u) with
        | .ok pg => .next ⟨pg :: page :: rest, insertVisited u s.visited⟩
        | .error msg =>
          if isRecoverableErr msg then
            match rest with
            | [] => .fatalStart ⟨page :: rest, insertVisited u s.visited⟩
            | _ :: rest' => .next ⟨page :: rest', insertVisited u s.visited⟩
          else
            .fatal msg

/-- Iterate the run loop for up to `n` iterations; `.next` means the loop is
still running after `n` iterations. -/
def runN (cfg : RunCfg) : Nat → RunState → StepRes
  | 0, s => .next s
  | n + 1, s =>
    match runStep cfg s with
    | .next s' => runN cfg n s'
    | r => r

/-- The url of the current traversal-path tail (`pageList.Back()`). -/
def tailUrl (s : RunState) : Option String :=
  match s.rpath with
  | [] => none
  | page :: _ => page.url

/-- The urls that are marked visited during the first `n` iterations of the
run loop from `s` (each iteration marks its tail's url before extraction). -/
def tailsSeen (cfg : RunCfg) : Nat → RunState → List String
  | 0, _ => []
  | n + 1, s =>
    match runStep cfg s with
    | .next s' => (tailUrl s).toList ++ tailsSeen cfg n s'
    | _ => (tailUrl s).toList

/-- The visited set that `runStep` binds into the accept closure when it
invokes the extractor from state `s`: the tail's url is inserted first. -/
def extractorVisited (s : RunState) : Option (List String) :=
  match s.rpath with
  | [] => none
  | page :: _ =>
    match page.url with
    | none => none
    | some u => some (insertVisited u s.visited)

/-- The count printed by `fmt.Printf("Found match, took %d follows\n",
pageList.Len())`: the length of the page list at the match. -/
def successFollowCount (s : RunState) : Nat :=
  s.rpath.length

/-- The final report: `strings.TrimPrefix(page.Url.String(), prefix)` for
each page from `pageList.Front()` to the back (a nil url would crash Go;
"" stands in, unreachable in the runs considered). -/
def reportPath (s : RunState) : List String :=
  s.rpath.reverse.map (fun pg =>
    match pg.url with
    | some u => goTrimPre wikiBase u
    | none => "")

/-- Decidable equality for extractor results, used to evaluate `followLink`
at concrete documents. -/
instance : DecidableEq (Except String Page) :=
  fun a b =>
    match a, b with
    | .ok x, .ok y =>
      if h : x = y then isTrue (by rw [h])
      else isFalse (by intro hc; cases hc; exact h rfl)
    | .error x, .error y =>
      if h : x = y then isTrue (by rw [h])
      else isFalse (by intro hc; cases hc; exact h rfl)
    | .ok _, .error _ => isFalse (by intro hc; cases hc)
    | .error _, .ok _ => isFalse (by intro hc; cases hc)

/-- One loop iteration of the extractor factors through the proposed anchor:
at a token that proposes no candidate the state just evolves; at a token
proposing candidate `pg`, the predicate on `pg.url` decides between
returning and continuing with the unchanged state. -/
theorem followTok_split (accept : Option String → Bool)
    (parse : String → Option String) (st : ScanState) (t : Tok) :
    followTok accept parse st t =
      (match anchorHit parse st t with
       | some pg =>
         if accept pg.url then Sum.inr pg else Sum.inl (scanNext parse st t)
       | none => Sum.inl (scanNext parse st t)) := by
  cases t with
  | other => rfl
  | end_ name =>
    simp only [followTok, anchorHit, scanNext]
    split_ifs <;> rfl
  | start name attrs =>
    simp only [followTok, anchorHit, scanNext]
    split_ifs <;> simp_all

/-- The extractor loop returns exactly the first accepted in-scope anchor. -/
theorem followLoop_eq (accept : Option String → Bool)
    (parse : String → Option String) :
    ∀ (toks : List Tok) (st : ScanState),
      followLoop accept parse toks st =
        firstAccepted accept (inScopeAnchors parse toks st) := by
  intro toks
  induction toks with
  | nil => intro st; rfl
  | cons t ts ih =>
    intro st
    simp only [followLoop, inScopeAnchors, followTok_split accept parse st t]
    cases h : anchorHit parse st t with
    | none => simpa using ih (scanNext parse st t)
    | some pg =>
      by_cases ha : accept pg.url = true
      · simp [ha, firstAccepted]
      · simp only [Bool.not_eq_true] at ha
        simp [ha, firstAccepted, ih (scanNext parse st t)]

/-- A document whose qualifying text block holds two anchors, `x` first. -/
def docOrd : Doc :=
  ⟨[.start "div" [("id", "mw-content-text")], .start "p" [],
    .start "a" [("href", "http://x")], .start "a" [("href", "http://y")]],
   "EOF"⟩

/-- dOrd with its two anchors swapped, `y` first. -/
def docSwap : Doc :=
  ⟨[.start "div" [("id", "mw-content-text")], .start "p" [],
    .start "a" [("href", "http://y")], .start "a" [("href", "http://x")]],
   "EOF"⟩

/-- Modelled from the spec: the scoping state of section 4.1 — (1) inside
the content container, entered only by a container-start token carrying the
configured id and exited when that same container's MATCHING end token is
reached, tracked by a nesting depth counter that is incremented on inner
container starts and decremented on inner container ends; (2) a text-block
(`p`) counter active only while (1) holds, reset when the container scope
ends. -/
structure SpecScan where
  inContainer : Bool
  depth : Int
  pCount : Int
deriving DecidableEq

/-- Modelled from the spec: one token's effect on the section-4.1 scoping
state (unlike the code's `scanNext`, an inner div end decrements `depth` and
the matching outer div end clears the container flag). -/
def specScanNext (st : SpecScan) (t : Tok) : SpecScan :=
  match t with
  | .start name attrs =>
    if name == "div" then
      if st.inContainer then { st with depth := st.depth + 1 }
      else if attrs.any (fun kv => kv.fst == "id" && kv.snd == divId) then
        ⟨true, 0, 0⟩
      else st
    else if name == "p" then
      if st.inContainer then { st with pCount := st.pCount + 1 } else st
    else st
  | .end_ name =>
    if name == "div" then
      if st.inContainer then
        if st.depth == 0 then ⟨false, 0, 0⟩
        else { st with depth := st.depth - 1 }
      else st
    else if name == "p" then
      if st.inContainer then { st with pCount := st.pCount - 1 } else st
    else st
  | .other => st

/-- Modelled from the spec: "the first link-destination attribute found on
that token"; a malformed value means the anchor is skipped, not attempted. -/
def specAnchorDest (parse : String → Option String)
    (attrs : List (String × String)) : Option String :=
  match attrs.find? (fun kv => kv.fst == "href") with
  | none => none
  | some kv => parse kv.snd

/-- Modelled from the spec: the candidate identifiers of the document, in
document order — the parsed destinations of anchors inside a qualifying text
block (text-block counter positive within the content container); anchors
with a malformed or missing destination are skipped without being
proposed. -/
def specAnchors (parse : String → Option String) :
    List Tok → SpecScan → List String
  | [], _ => []
  | t :: ts, st =>
    match t with
    | .start name attrs =>
      if name == "a" then
        if st.inContainer then
          if 0 < st.pCount then
            match specAnchorDest parse attrs with
            | some u => u :: specAnchors parse ts (specScanNext st t)
            | none => specAnchors parse ts (specScanNext st t)
          else specAnchors parse ts (specScanNext st t)
        else specAnchors parse ts (specScanNext st t)
      else specAnchors parse ts (specScanNext st t)
    | _ => specAnchors parse ts (specScanNext st t)

/-- Modelled from the spec: propose each candidate identifier to the
predicate in document order, stopping at the first acceptance. -/
def firstAcceptedId (accept : Option String → Bool) :
    List String → Option String
  | [] => none
  | u :: us => if accept (some u) then some u else firstAcceptedId accept us

/-- Modelled from the spec: the destination the claim says the extractor
must return — the first accepted candidate among the anchors inside a
qualifying text block, `none` when there is none (the no-link outcome). -/
def specFirstDest (accept : Option String → Bool)
    (parse : String → Option String) (doc : Doc) : Option String :=
  firstAcceptedId accept (specAnchors parse doc.toks ⟨false, 0, 0⟩)

/-- Claim C3, as amended: for every document stream and every acceptance
predicate, `FollowLink` returns the destination of the first anchor token in
document order among the anchors its own scanner treats as in scope — those
scanned while the paragraph counter is positive under the code's container
tracking, whose depth counter is never decremented (so after any inner div
the container scope never closes, cf. C4), and with each such anchor's
possibly-absent parsed destination consulted as-is (malformed or missing
hrefs included, cf. C7) — whose destination the predicate accepts; an anchor
whose destination is rejected does not stop the scan, so reordering the
anchors of a document changes which destination is returned — witnessed by a
two-anchor document and its swap. -/
theorem c3_first_accepted_in_code_scope :
    (∀ (accept : Option String → Bool) (parse : String → Option String)
      (doc : Doc),
        followLink accept parse doc = codeScopeExtract accept parse doc)
    ∧ resultUrl (followLink (fun o => o.isSome) (fun h => some h) docOrd) ≠
        resultUrl (followLink (fun o => o.isSome) (fun h => some h) docSwap) :=
  ⟨fun accept parse doc => by
    simp [followLink, codeScopeExtract, followLoop_eq], by decide⟩

/-- Membership in the visited key list coincides with the `contains` test
used by the accept closure. -/
theorem containsMem (l : List String) (a : String) :
    l.contains a = true ↔ a ∈ l :=
  List.elem_iff

/-- Claim C5: the acceptance predicate is a pure function of the candidate
identifier and the visited set, and it returns true iff the candidate is not
a visited key, begins with the corpus base, and the remainder after the base
contains none of ':', '/', '#'; the definition of `wikiAccept` is the
source's short-circuit chain in exactly that order (visited, prefix, then
the three separators). -/
theorem c5_accept_policy (visited : List String) (ur : String) :
    wikiAccept visited ur = true ↔
      (ur ∉ visited ∧ goHasPre wikiBase ur = true ∧
       goContainsCh (goTrimPre wikiBase ur) ':' = false ∧
       goContainsCh (goTrimPre wikiBase ur) '/' = false ∧
       goContainsCh (goTrimPre wikiBase ur) '#' = false) := by
  unfold wikiAccept
  split_ifs with h1 h2 h3
  · simp_all [containsMem]
  · simp_all [containsMem]
  · simp only [Bool.or_eq_true] at h3
    constructor
    · intro hc; exact absurd hc (by simp)
    · intro ⟨_, _, hc1, hc2, hc3⟩
      rcases h3 with (h | h) | h <;> simp_all
  · simp only [Bool.or_eq_true, not_or] at h3
    simp_all [containsMem]

/-- Claim C5 witness: a fresh well-shaped article url is accepted against an
empty visited set. -/
theorem c5_accept_policy_witness :
    wikiAccept [] "http://en.wikipedia.org/wiki/Car" = true :=
  (c5_accept_policy [] "http://en.wikipedia.org/wiki/Car").mpr
    ⟨by decide, by decide, by decide, by decide, by decide⟩

/-- A document whose content container holds one inner div; after the inner
div and both end tags, a paragraph with an anchor appears OUTSIDE the
container. -/
def docC4 : Doc :=
  ⟨[.start "div" [("id", "mw-content-text")], .start "div" [],
    .end_ "div", .end_ "div", .start "p" [], .start "a" [("href", "http://x")]],
   "EOF"⟩

/-- Claim C4, behaviour of the code at the failing input: the source never
decrements `depth`, so after an inner div is opened the container scope never
closes — the matching outer `div` end leaves `inBody` true (second conjunct:
the scanner state after the four div tokens of `docC4` is still
`inBody = true`, `depth = 1`), and the anchor following the container's end
is still treated as in scope and returned (first conjunct); per the claim
the result should have been the no-link outcome `.error "EOF"`. -/
theorem c4_container_scope_not_closed :
    followLink (fun _ => true) (fun h => some h) docC4 =
      .ok ⟨"", some "http://x"⟩ ∧
    List.foldl (scanNext (fun h => some h)) ⟨false, 0, 0⟩
      [Tok.start "div" [("id", "mw-content-text")], Tok.start "div" [],
       Tok.end_ "div", Tok.end_ "div"] = ⟨true, 0, 1⟩ :=
  ⟨by decide, by decide⟩

/-- A document whose qualifying text block holds first an anchor with an
unparseable href, then an anchor with a well-formed one. -/
def docC7 : Doc :=
  ⟨[.start "div" [("id", "mw-content-text")], .start "p" [],
    .start "a" [("href", "bad")],
    .start "a" [("href", "http://en.wikipedia.org/wiki/Good")]],
   "EOF"⟩

/-- The resolver for `docC7`: the first anchor's href fails to parse. -/
def parse7 : String → Option String :=
  fun h => if h == "bad" then none else some h

/-- Claim C3 counterexample: the claim as stated is false of the program.
On `docC4` the spec's qualifying text block contains no anchors at all (the
container's matching end token closed the scope before the paragraph), so
the claim requires the no-link outcome, yet `FollowLink` returns the
destination `http://x` (conjuncts 1 and 2).  On `docC7` with a predicate
that accepts no identifier, the spec-side first accepted candidate is
`none`, yet `FollowLink` "succeeds" with a destination-less page because it
consulted the predicate at the malformed anchor's nil destination
(conjuncts 3 and 4). -/
theorem c3_spec_scope_counterexample :
    resultUrl (followLink (fun _ => true) (fun h => some h) docC4) =
      some "http://x" ∧
    specFirstDest (fun _ => true) (fun h => some h) docC4 = none ∧
    followLink (fun o => o.isNone) parse7 docC7 = .ok ⟨"", none⟩ ∧
    specFirstDest (fun o => o.isNone) parse7 docC7 = none :=
  ⟨by decide, by decide, by decide, by decide⟩

/-- Claim C7, behaviour of the code at the failing input: the acceptance
predicate IS invoked on the malformed anchor — with a nil destination.  A
predicate that accepts only a nil destination is handed the malformed anchor
and `FollowLink` returns its empty page (first conjunct), so the result
depends on the predicate's value at nil (second conjunct: rejecting
everything scans to exhaustion); per the claim the malformed anchor should
have been skipped without consulting the predicate.  The run loop's actual
closure dereferences the nil pointer at this call. -/
theorem c7_accept_invoked_on_nil :
    followLink (fun o => o.isNone) parse7 docC7 = .ok ⟨"", none⟩ ∧
    followLink (fun _ => false) parse7 docC7 = .error "EOF" :=
  ⟨by decide, by decide⟩

/-- Inserting a key leaves it a member. -/
theorem mem_insertVisited_self (u : String) (v : List String) :
    u ∈ insertVisited u v := by
  unfold insertVisited
  split
  · next h => exact (containsMem v u).mp h
  · exact List.mem_cons_self u v

/-- Inserting a key preserves the other members. -/
theorem mem_insertVisited_of_mem (w u : String) (v : List String)
    (h : u ∈ v) : u ∈ insertVisited w v := by
  unfold insertVisited
  split
  · exact h
  · exact List.mem_cons_of_mem w h

/-- Rule 1 of the acceptance policy: a visited key is rejected. -/
theorem wikiAccept_mem (v : List String) (c : String) (h : c ∈ v) :
    wikiAccept v c = false := by
  have hc : v.contains c = true := (containsMem v c).mpr h
  unfold wikiAccept
  rw [hc]
  simp

/-- Every continuing run-loop iteration marks the tail's url visited: the
successor state's visited set is the insertion of the tail's url. -/
theorem runStep_next_visited (cfg : RunCfg) (s s' : RunState)
    (h : runStep cfg s = .next s') :
    ∃ page rest u, s.rpath = page :: rest ∧ page.url = some u ∧
      s'.visited = insertVisited u s.visited := by
  obtain ⟨rp, vis⟩ := s
  cases rp with
  | nil => simp [runStep] at h
  | cons page rest =>
    cases hu : page.url with
    | none => simp [runStep, hu] at h
    | some u =>
      refine ⟨page, rest, u, rfl, hu, ?_⟩
      simp only [runStep, hu] at h
      split at h
      · exact StepRes.noConfusion h
      · split at h
        · injection h with h'
          rw [← h']
        · split at h
          · split at h
            · exact StepRes.noConfusion h
            · injection h with h'
              rw [← h']
          · exact StepRes.noConfusion h

/-- The visited set grows monotonically along the run loop. -/
theorem runN_visited_mono (cfg : RunCfg) (n : Nat) :
    ∀ (s s' : RunState), runN cfg n s = .next s' →
      ∀ u, u ∈ s.visited → u ∈ s'.visited := by
  induction n with
  | zero =>
    intro s s' h u hu
    injection h with h'
    rw [← h']
    exact hu
  | succ n ih =>
    intro s s' h u hu
    rw [runN] at h
    cases hs : runStep cfg s with
    | next s1 =>
      rw [hs] at h
      obtain ⟨page, rest, w, _, _, hv⟩ := runStep_next_visited cfg s s1 hs
      exact ih s1 s' h u (hv ▸ mem_insertVisited_of_mem w u s.visited hu)
    | matched m => rw [hs] at h; exact StepRes.noConfusion h
    | fatalStart m => rw [hs] at h; exact StepRes.noConfusion h
    | fatal m => rw [hs] at h; exact StepRes.noConfusion h

/-- Every url that was a traversal-path tail during the first `n` iterations
is in the visited set of the state the run has reached. -/
theorem tailsSeen_visited (cfg : RunCfg) (n : Nat) :
    ∀ (s s' : RunState), runN cfg n s = .next s' →
      ∀ u, u ∈ tailsSeen cfg n s → u ∈ s'.visited := by
  induction n with
  | zero =>
    intro s s' _ u hu
    simp [tailsSeen] at hu
  | succ n ih =>
    intro s s' h u hu
    rw [runN] at h
    rw [tailsSeen] at hu
    cases hs : runStep cfg s with
    | next s1 =>
      rw [hs] at h hu
      obtain ⟨page, rest, w, hrp, hpu, hv⟩ := runStep_next_visited cfg s s1 hs
      rcases List.mem_append.mp hu with hl | hr
      · have htl : tailUrl s = some u := by
          cases ht : tailUrl s <;> simp [ht, Option.toList] at hl
          · simp [hl]
        have hw : page.url = some u := by
          simpa [tailUrl, hrp] using htl
        rw [hpu] at hw
        injection hw with hw'
        have hmem : u ∈ s1.visited := by
          rw [hv, ← hw']
          exact mem_insertVisited_self w s.visited
        exact runN_visited_mono cfg n s1 s' h u hmem
      · exact ih s1 s' h u hr
    | matched m => rw [hs] at h; exact StepRes.noConfusion h
    | fatalStart m => rw [hs] at h; exact StepRes.noConfusion h
    | fatal m => rw [hs] at h; exact StepRes.noConfusion h

/-- Claim C6: every identifier that becomes the path's tail (the seed
included) is marked visited before the extractor is invoked on its document
(`extractorVisited` is the visited set `runStep` binds into the accept
closure, and it contains the current tail), so a candidate destination equal
to any current or former tail identifier is rejected by the acceptance
policy as already visited. -/
theorem c6_tails_rejected (cfg : RunCfg) (n : Nat) (s s' : RunState)
    (u : String) (vset : List String)
    (h1 : runN cfg n s = .next s')
    (h2 : u ∈ tailsSeen cfg n s ∨ tailUrl s' = some u)
    (h3 : extractorVisited s' = some vset) :
    acceptOpt vset (some u) = false := by
  obtain ⟨rp, vis⟩ := s'
  cases rp with
  | nil => simp [extractorVisited] at h3
  | cons page rest =>
    cases hpu : page.url with
    | none => simp [extractorVisited, hpu] at h3
    | some w =>
      simp only [extractorVisited, hpu] at h3
      injection h3 with h3'
      rcases h2 with hl | hr
      · have hmem : u ∈ (RunState.mk (page :: rest) vis).visited :=
          tailsSeen_visited cfg n s ⟨page :: rest, vis⟩ h1 u hl
        have : u ∈ vset :=
          h3' ▸ mem_insertVisited_of_mem w u vis hmem
        simpa [acceptOpt] using wikiAccept_mem vset u this
      · have hw : page.url = some u := by
          simpa [tailUrl] using hr
        rw [hpu] at hw
        injection hw with hw'
        have : u ∈ vset := by
          rw [← h3', ← hw']
          exact mem_insertVisited_self w vis
        simpa [acceptOpt] using wikiAccept_mem vset u this

/-- Resolver for scenarios whose hrefs are already absolute urls. -/
def idResolve : String → String → Option String := fun _ href => some href

/-- Seed page of the dead-end scenarios. -/
def pgS : Page := ⟨"S", some "http://en.wikipedia.org/wiki/S"⟩

/-- Intermediate page A of the dead-end scenarios. -/
def pgA : Page := ⟨"", some "http://en.wikipedia.org/wiki/A"⟩

/-- Tail page B of the dead-end scenarios. -/
def pgB : Page := ⟨"", some "http://en.wikipedia.org/wiki/B"⟩

/-- A world in which every document is empty (every page dead-ends with a
clean "EOF" exhaustion) and the target never matches. -/
def cfgDead : RunCfg := ⟨fun _ => false, idResolve, fun _ => ⟨[], "EOF"⟩⟩

/-- Claim C1, behaviour of the code at the failing input: with traversal
path S → A → B (tail B, head of `rpath`) and B dead-ending, the backtrack
step removes A — the tail's PREDECESSOR (`pageList.Remove(e)` with
`e := listItem.Prev()`) — and the next iteration re-reads `pageList.Back()`,
which is still the dead-end tail B; per the claim the step should have
removed B itself and resumed scanning from A (result `.next` with path
`[pgA, pgS]`). -/
theorem c1_backtrack_removes_predecessor :
    runStep cfgDead ⟨[pgB, pgA, pgS], []⟩ =
      .next ⟨[pgB, pgS], ["http://en.wikipedia.org/wiki/B"]⟩ := by
  decide

/-- Url of the seed article S. -/
def uS : String := "http://en.wikipedia.org/wiki/S"

/-- Url of article A, the first candidate on S. -/
def uA : String := "http://en.wikipedia.org/wiki/A"

/-- The seed document: its qualifying text block links to A and then to a
second, distinct candidate. -/
def docStart : Doc :=
  ⟨[.start "div" [("id", "mw-content-text")], .start "p" [],
    .start "a" [("href", uA)],
    .start "a" [("href", "http://en.wikipedia.org/wiki/Second")]],
   "EOF"⟩

/-- Scenario C world: the seed serves `docStart`, every other page (A in
particular) dead-ends; the target never matches. -/
def cfgC : RunCfg :=
  ⟨fun _ => false, idResolve, fun u => if u == uS then docStart else ⟨[], "EOF"⟩⟩

/-- Initial run state of scenario C, seeded with S. -/
def initC : RunState := ⟨[⟨"S", some uS⟩], []⟩

/-- Claim C2, behaviour of the code at the failing input (spec scenario C):
S's first candidate A is followed, A dead-ends; the buggy backtrack removes
S (the predecessor), re-scans A, and on A's second dead end aborts with the
"Cannot find links on provided page" condition at tail A — which is NOT the
start node — after 3 iterations; the extractor is never re-invoked on S,
whose document still holds the second candidate.  Per the claim the run
should have backtracked to S and found that second candidate. -/
theorem c2_fatal_at_nonstart_tail :
    runN cfgC 3 initC = .fatalStart ⟨[⟨"", some uA⟩], [uA, uS]⟩ := by
  decide

/-- Claim C6 witness: after one iteration of scenario C the seed's url is a
former tail, and the accept closure bound at the next extraction (visited
set `[uA, uS]`) rejects it. -/
theorem c6_tails_rejected_witness :
    runN cfgC 1 initC = .next ⟨[⟨"", some uA⟩, ⟨"S", some uS⟩], [uS]⟩ ∧
    uS ∈ tailsSeen cfgC 1 initC ∧
    extractorVisited ⟨[⟨"", some uA⟩, ⟨"S", some uS⟩], [uS]⟩ = some [uA, uS] ∧
    acceptOpt [uA, uS] (some uS) = false :=
  ⟨by decide, by decide, by decide,
   c6_tails_rejected cfgC 1 initC
     ⟨[⟨"", some uA⟩, ⟨"S", some uS⟩], [uS]⟩ uS [uA, uS]
     (by decide) (Or.inl (by decide)) (by decide)⟩

/-- A world in which every fetch yields a truncated stream: the tokenizer
fails mid-scan with "unexpected EOF" (`io.ErrUnexpectedEOF`), which is NOT
the clean-exhaustion condition (`io.EOF`, message "EOF"). -/
def cfgTrunc : RunCfg :=
  ⟨fun _ => false, idResolve, fun _ => ⟨[], "unexpected EOF"⟩⟩

/-- Run state with path S → B (tail B) and nothing visited. -/
def s8 : RunState := ⟨[pgB, pgS], []⟩

/-- Claim C8 counterexample: a mid-scan truncation ("unexpected EOF", not
simple exhaustion) is classified recoverable by the suffix test
`str[len(str)-3:] == "EOF"` and the run loop backtracks (`.next`) instead of
aborting, contradicting the claim that every failure other than clean
exhaustion is fatal. -/
theorem c8_truncation_backtracks :
    isRecoverableErr "unexpected EOF" = true ∧
    ("unexpected EOF" : String) ≠ "EOF" ∧
    runStep cfgTrunc s8 = .next ⟨[pgB], ["http://en.wikipedia.org/wiki/B"]⟩ :=
  ⟨by decide, by decide, by decide⟩

/-- Claim C8 as amended: when extraction on the (non-matching) tail fails
with message `msg`, the run loop backtracks exactly when `msg` is at least
three bytes long and ends in "EOF" — which covers clean exhaustion
(message "EOF") but also "unexpected EOF" truncations and any transport
error whose text ends in "EOF" — and aborts fatally on every other message
(the backtrack degenerates to the distinguished start fatal when the tail
has no predecessor). -/
theorem c8_error_classification (cfg : RunCfg) (s : RunState) (page : Page)
    (rest : List Page) (u msg : String)
    (h1 : s.rpath = page :: rest)
    (h2 : page.url = some u)
    (h3 : cfg.target (goTrimPre wikiBase u) = false)
    (h4 : followLink (acceptOpt (insertVisited u s.visited)) (cfg.parse u)
            (cfg.world u) = .error msg) :
    runStep cfg s =
      (if isRecoverableErr msg then
        (match rest with
         | [] => StepRes.fatalStart ⟨page :: rest, insertVisited u s.visited⟩
         | _ :: rest' => StepRes.next ⟨page :: rest', insertVisited u s.visited⟩)
       else StepRes.fatal msg) := by
  obtain ⟨rp, vis⟩ := s
  simp only at h1 h4
  subst h1
  cases rest with
  | nil => simp [runStep, h2, h3, h4]
  | cons q rest' => simp [runStep, h2, h3, h4]

/-- Claim C8 amended-theorem witness: the truncation world instantiates the
classification at a concrete state, backtracking on "unexpected EOF". -/
theorem c8_error_classification_witness :
    runStep cfgTrunc s8 = .next ⟨[pgB], ["http://en.wikipedia.org/wiki/B"]⟩ :=
  (c8_error_classification cfgTrunc s8 pgB [pgS]
      "http://en.wikipedia.org/wiki/B" "unexpected EOF"
      rfl rfl (by decide) (by decide)).trans (by decide)

/-- Url of the Vehicle article. -/
def uV : String := "http://en.wikipedia.org/wiki/Vehicle"

/-- Url of the Transport article. -/
def uT : String := "http://en.wikipedia.org/wiki/Transport"

/-- Url of the Car article. -/
def uCar : String := "http://en.wikipedia.org/wiki/Car"

/-- The Vehicle document: first in-scope anchor points to Transport. -/
def docVehicle : Doc :=
  ⟨[.start "div" [("id", "mw-content-text")], .start "p" [],
    .start "a" [("href", uT)]], "EOF"⟩

/-- The Transport document: first in-scope anchor points to Car. -/
def docTransport : Doc :=
  ⟨[.start "div" [("id", "mw-content-text")], .start "p" [],
    .start "a" [("href", uCar)]], "EOF"⟩

/-- Scenario A world: the synthetic three-document graph
Vehicle → Transport → Car; the target pattern matches exactly "Car" (on the
three identifiers of this run it agrees with the regexp "Car"). -/
def cfgCar : RunCfg :=
  ⟨fun str => str == "Car", idResolve,
   fun u => if u == uV then docVehicle
            else if u == uT then docTransport
            else ⟨[], "EOF"⟩⟩

/-- Initial run state of scenario A, seeded with Vehicle. -/
def initCar : RunState := ⟨[⟨"Vehicle", some uV⟩], []⟩

/-- Terminal run state of scenario A: path Vehicle, Transport, Car (tail
first in `rpath`), all three visited. -/
def endCar : RunState :=
  ⟨[⟨"", some uCar⟩, ⟨"", some uT⟩, ⟨"Vehicle", some uV⟩], [uCar, uT, uV]⟩

/-- Claim C10 counterexample: scenario A does terminate in a match with path
Vehicle → Transport → Car, but the success summary prints
`pageList.Len()` = 3, not the claimed follow count 2. -/
theorem c10_follow_count_not_two :
    runN cfgCar 3 initCar = .matched endCar ∧
    successFollowCount endCar ≠ 2 :=
  ⟨by decide, by decide⟩

/-- Claim C10 as amended: for the synthetic three-document graph
Vehicle → Transport → Car with start "Vehicle" and a target pattern matching
"Car", the run terminates in MATCHED, the reported path is exactly
[Vehicle, Transport, Car], and the success summary line states a count of 3
(the length of the page list — one more than the number of links actually
followed). -/
theorem c10_scenario_a :
    runN cfgCar 3 initCar = .matched endCar ∧
    reportPath endCar = ["Vehicle", "Transport", "Car"] ∧
    successFollowCount endCar = 3 :=
  ⟨by decide, by decide, by decide⟩
